import Mathlib

/-!
Verification of the octo-code-agent repository: a shallow embedding of the
message model, the agent loop's context trimming and tool dispatch, the
OpenAI-compatible provider adapter, the CLI permission service, and the
team/task tools, with theorems settling the frozen behavioural claims.

Modelling conventions:
* Rust `u64` arithmetic is modelled with `Nat` (`saturating_sub` is `Nat`
  subtraction; no value in these code paths approaches `2^64`).
* Rust `String::len` (a byte count) is modelled with `String.utf8ByteSize`.
* Stateful code is modelled by explicit state passing; file-system stores
  become in-memory lists keyed the way the files are keyed.
* Fallible code returns `Except`/`Option`.
* Fields that no modelled code path reads (UUIDs, timestamps, token-usage
  records) are omitted from the embedded records.
-/

namespace Octo

/-! ## Message model — crates/octo-core/src/message.rs -/

/-- The `FinishReason` from message.rs. -/
inductive FinishReason where
  | endTurn
  | maxTokens
  | toolUse
  | cancelled
  | error
  | permissionDenied
deriving DecidableEq, Repr

/-- The `ContentPart` from message.rs.  The `Finish` variant's timestamp is
dropped (never read by the embedded code). -/
inductive ContentPart where
  | text (text : String)
  | reasoning (text : String)
  | image (data : String) (media_type : String)
  | imageUrl (url : String) (detail : Option String)
  | toolCall (id : String) (name : String) (input : String)
  | toolResult (tool_call_id : String) (content : String) (is_error : Bool)
  | finish (reason : FinishReason)
deriving DecidableEq, Repr

/-- The `MessageRole` from message.rs. -/
inductive MessageRole where
  | user
  | assistant
  | system
  | tool
deriving DecidableEq, Repr

/-- The `Message` from message.rs, reduced to the fields the embedded code
reads: role and parts (id, session id, model id, usage and timestamps are
never consulted by the modelled paths). -/
structure Message where
  role : MessageRole
  parts : List ContentPart
deriving DecidableEq, Repr

/-- The `(id, name, input)` of a ToolCall part. -/
def toolCallPartOf : ContentPart → Option (String × String × String)
  | .toolCall id name input => some (id, name, input)
  | _ => none

/-- The `Message::tool_calls`: the `(id, name, input)` of every ToolCall part,
in order. -/
def Message.tool_calls (m : Message) : List (String × String × String) :=
  m.parts.filterMap toolCallPartOf

/-- The `Message::new_tool_result`: a tool-role message holding the given
result parts. -/
def Message.new_tool_result (results : List ContentPart) : Message :=
  { role := .tool, parts := results }

/-! ## Token estimation and context trimming — src/agent/agent.rs -/

/-- The `estimate_tokens`: `text.len() / 4` (byte length, integer division). -/
def estimate_tokens (text : String) : Nat :=
  text.utf8ByteSize / 4

/-- The per-part contribution inside the loop of `estimate_message_tokens`. -/
def ContentPart.estimatedTokens : ContentPart → Nat
  | .text t => estimate_tokens t
  | .reasoning t => estimate_tokens t
  | .toolCall _ _ input => estimate_tokens input + 20
  | .toolResult _ content _ => estimate_tokens content + 10
  | .image _ _ => 1000
  | .imageUrl _ _ => 1000
  | .finish _ => 0

/-- The `estimate_message_tokens`: sum the per-part estimates, then `total.max(1)`. -/
def estimate_message_tokens (msg : Message) : Nat :=
  (msg.parts.foldl (fun total part => total + ContentPart.estimatedTokens part) 0).max 1

/-- The message-token budget computed at the top of `trim_messages_to_fit`:
`(context_window.saturating_sub(system_tokens)) * 3 / 4` with
`system_tokens = estimate_tokens(system_prompt) + 200`. -/
def trim_budget (context_window : Nat) (system_prompt : String) : Nat :=
  (context_window - (estimate_tokens system_prompt + 200)) * 3 / 4

/-- The scan loop of `trim_messages_to_fit` that chooses `remove_end`:
starting at index `i` with `current` tokens already counted, walk the
middle messages; stop at the first message that would push the running
total past the budget. -/
def trim_scan (budget : Nat) : Nat → Nat → List Message → Nat
  | _current, i, [] => i
  | current, i, m :: rest =>
    let t := estimate_message_tokens m
    if budget < current + t then i
    else trim_scan budget (current + t) (i + 1) rest

/-- The `trim_messages_to_fit` (src/agent/agent.rs lines 139-177), returning the
trimmed list instead of mutating in place. -/
def trim_messages_to_fit (messages : List Message) (context_window : Nat)
    (system_prompt : String) : List Message :=
  let max_message_tokens := trim_budget context_window system_prompt
  let total := (messages.map estimate_message_tokens).sum
  if total ≤ max_message_tokens then messages
  else
    let keep_tail := min 4 messages.length
    let keep_head := min 1 messages.length
    if messages.length ≤ keep_head + keep_tail then messages
    else
      let head_tail : Nat :=
        ((messages.take keep_head).map estimate_message_tokens).sum +
          ((messages.drop (messages.length - keep_tail)).map
            estimate_message_tokens).sum
      let middle := (messages.drop keep_head).take
        (messages.length - keep_tail - keep_head)
      let remove_end := trim_scan max_message_tokens head_tail keep_head middle
      if remove_end < messages.length - keep_tail then
        messages.take remove_end ++ messages.drop (messages.length - keep_tail)
      else messages

/-- The ids of the ToolCall parts of a message. -/
def Message.toolCallIds (m : Message) : List String :=
  m.parts.filterMap fun p =>
    match p with
    | .toolCall id _ _ => some id
    | _ => none

/-- Does a tool-role message carry a ToolResult whose `tool_call_id` is `id`? -/
def Message.answersCall (m : Message) (id : String) : Bool :=
  m.role == .tool && m.parts.any fun p =>
    match p with
    | .toolResult tcid _ _ => tcid == id
    | _ => false

/-- The pairing contract of the spec: every ToolCall part of an assistant
message is followed, later in the list, by a tool-role message containing a
ToolResult with the matching id. -/
def noOrphanToolCalls : List Message → Bool
  | [] => true
  | m :: rest =>
    (if m.role == .assistant then
      (m.toolCallIds).all fun id => rest.any fun m2 => m2.answersCall id
    else true) && noOrphanToolCalls rest

/-! ## Tool results and the agent loop's tool dispatch
    crates/octo-core/src/tool.rs and src/agent/agent.rs -/

/-- The `ToolResult` from tool.rs (`metadata`, never read here, is dropped). -/
structure ToolResult where
  content : String
  is_error : Bool
deriving DecidableEq, Repr

/-- The `ToolResult::success`. -/
def ToolResult.success (content : String) : ToolResult :=
  { content := content, is_error := false }

/-- The `ToolResult::error`. -/
def ToolResult.error (message : String) : ToolResult :=
  { content := message, is_error := true }

/-- The `ToolCall` from tool.rs. -/
structure ToolCall where
  id : String
  name : String
  input : String
deriving DecidableEq, Repr

/-- A registered tool: `definition().name` plus the behaviour of
`run` (the `ToolContext` and the error type are abstracted: a failing run
yields the `e.to_string()` the agent loop converts into an error result). -/
structure ToolImpl where
  name : String
  run : ToolCall → Except String ToolResult

/-- The longest prefix of the characters whose UTF-8 sizes sum to at most
`budget` bytes: the slice `&content[..content.floor_char_boundary(max)]`. -/
def takeUtf8Bytes : List Char → Nat → List Char
  | [], _ => []
  | c :: rest, budget =>
    if c.utf8Size ≤ budget then c :: takeUtf8Bytes rest (budget - c.utf8Size)
    else []

/-- The `truncate_tool_result` from src/agent/agent.rs. -/
def truncate_tool_result (content : String) (max_chars : Nat) : String :=
  if content.utf8ByteSize ≤ max_chars then content
  else
    String.mk (takeUtf8Bytes content.data max_chars) ++
      "\n\n... [truncated: " ++ toString content.utf8ByteSize ++
      " total chars, showing first " ++ toString max_chars ++ "]"

/-- The prompt-injection wrapper put around every tool result in
`agent_loop`. -/
def wrap_tool_output (call_name : String) (truncated : String) : String :=
  "<tool_output tool=\"" ++ call_name ++ "\">\n" ++ truncated ++
    "\n</tool_output>"

/-- The body of the `FinishReason::ToolUse` loop of `agent_loop` (lines
262-333): run each call in order, turning a failed run into an error
result, truncating and wrapping its content; an unregistered tool name
aborts the turn with `ToolError::NotFound` (carried here as the name). -/
def run_tool_calls (tools : List ToolImpl) :
    List (String × String × String) → Except String (List ContentPart)
  | [] => .ok []
  | (call_id, call_name, call_input) :: rest =>
    match tools.find? (fun t => t.name == call_name) with
    | none => .error call_name
    | some tool =>
      let result := match tool.run ⟨call_id, call_name, call_input⟩ with
        | .ok r => r
        | .error e => ToolResult.error e
      let truncated := truncate_tool_result result.content 30000
      let wrapped := wrap_tool_output call_name truncated
      match run_tool_calls tools rest with
      | .ok parts =>
        .ok (ContentPart.toolResult call_id wrapped result.is_error :: parts)
      | .error e => .error e

/-- One `FinishReason::ToolUse` turn of `agent_loop`: the assistant message
is pushed, its tool calls are run, and exactly one tool-role message
holding the results is pushed after it. -/
def agent_tool_use_step (tools : List ToolImpl) (messages : List Message)
    (assistant_msg : Message) : Except String (List Message) :=
  match run_tool_calls tools assistant_msg.tool_calls with
  | .ok tool_results =>
    .ok (messages ++ [assistant_msg, Message.new_tool_result tool_results])
  | .error e => .error e

/-- The `tool_call_id` of a ToolResult part, `none` for any other part. -/
def toolResultIdOf : ContentPart → Option String
  | .toolResult id _ _ => some id
  | _ => none

/-! ## Provider retry loop — crates/octo-providers/src/openai.rs -/

/-- The `MAX_RETRIES`. -/
def MAX_RETRIES : Nat := 6

/-- The `INITIAL_BACKOFF_MS`. -/
def INITIAL_BACKOFF_MS : Nat := 2000

/-- The `MAX_BACKOFF_MS`. -/
def MAX_BACKOFF_MS : Nat := 60000

/-- The `ProviderError`, reduced to the variants the retry loop produces. -/
inductive ProviderErrorM where
  | http (msg : String)
  | rateLimited (retry_after_ms : Nat)
  | api (status : Nat) (message : String)
deriving DecidableEq, Repr

/-- The `compute_backoff`.  `jitterOf capped` stands for the sampled
`(capped as f64 * 0.25 * rand_f64()) as u64` term (`rand_f64` ranges over
`[0, 1)`, so `0` is one of its possible values). -/
def compute_backoff (jitterOf : Nat → Nat) (attempt : Nat)
    (server_retry_ms : Option Nat) : Nat :=
  match server_retry_ms with
  | some ms => ms
  | none =>
    let base := INITIAL_BACKOFF_MS * 2 ^ (attempt - 1)
    let capped := min base MAX_BACKOFF_MS
    capped + jitterOf capped

/-- What one HTTP attempt of `stream_response` observes. -/
inductive AttemptOutcome where
  | ok
  | connErr (msg : String)
  | httpResp (status : Nat) (retryAfterSecs : Option Nat) (body : String)
deriving DecidableEq, Repr

/-- How the retry loop of `stream_response` ends. -/
inductive StreamResult where
  | success (attempt : Nat)
  | apiError (status : Nat) (message : String)
  | allFailed (last : ProviderErrorM)
deriving DecidableEq, Repr

/-- The retry loop of `stream_response` (lines 274-326): `remaining`
attempts left, `attempt` the current index; every iteration after the
first sleeps `compute_backoff(attempt, None)` (recorded in `waits`).  A
429/502/503 response stores `Retry-After × 1000` (when present, else the
next computed backoff) in the `RateLimited` error and continues; any other
failing status returns an API error. -/
def stream_response_attempts (jitterOf : Nat → Nat)
    (outcome : Nat → AttemptOutcome) :
    Nat → Nat → ProviderErrorM → List Nat → List Nat × StreamResult
  | 0, _attempt, lastErr, waits => (waits.reverse, .allFailed lastErr)
  | remaining + 1, attempt, _last_err, waits =>
    let waits' := if 0 < attempt then
        compute_backoff jitterOf attempt none :: waits
      else waits
    match outcome attempt with
    | .ok => (waits'.reverse, .success attempt)
    | .connErr m =>
      stream_response_attempts jitterOf outcome remaining (attempt + 1)
        (.http m) waits'
    | .httpResp status retryAfterSecs body =>
      if status = 429 ∨ status = 502 ∨ status = 503 then
        stream_response_attempts jitterOf outcome remaining (attempt + 1)
          (.rateLimited ((retryAfterSecs.map (· * 1000)).getD
            (compute_backoff jitterOf (attempt + 1) none))) waits'
      else (waits'.reverse, .apiError status body)

/-- The retry loop of `stream_response` from its initial state: the waits
performed between attempts, and the outcome. -/
def stream_response_retry (jitterOf : Nat → Nat)
    (outcome : Nat → AttemptOutcome) : List Nat × StreamResult :=
  stream_response_attempts jitterOf outcome MAX_RETRIES 0
    (.http "no attempts made") []

/-- C3's failing input: the first attempt gets HTTP 429 with
`Retry-After: 7`, the second attempt succeeds. -/
def c3Outcome : Nat → AttemptOutcome := fun n =>
  if n = 0 then .httpResp 429 (some 7) "" else .ok

/-! ## JSON values — a model of `serde_json::Value` with its default
(`BTreeMap`, key-sorted) objects.

Numbers follow `serde_json`'s classification: an integer token in
u64/i64 range becomes an exact integer (re-serialized exactly); every
other accepted number token — a fraction, an exponent, `-0`, or an
integer outside u64/i64 range — goes through `f64` in serde_json and is
carried here as its source token.  What `f64` itself does to such a
token (whether the conversion overflows to infinity, which makes
`from_str` fail, and the shortest-round-trip decimal `to_string`
prints) is floating-point behaviour outside this embedding; it enters
as the `FloatModel` parameter below, and the real serde_json is one
instantiation of it.  Everything else — grammar, escapes, surrogate
pairs, whitespace, key sorting, duplicate keys — is modelled exactly. -/

/-- The two floating-point facts the model does not compute itself:
`accept raw` says whether the number token `raw` converts to a finite
`f64` (serde_json rejects the document otherwise), and `render raw` is
serde_json's `to_string` of the `f64` it parses from `raw`. -/
structure FloatModel where
  accept : String → Bool
  render : String → String

/-- A JSON value.  Object fields are kept sorted by key with duplicate
keys collapsed (last wins), as `serde_json`'s default map does.
`intNum` holds an integer token in u64/i64 range; `floatNum` holds the
source token of a number serde_json parses as `f64`. -/
inductive Json where
  | null
  | bool (b : Bool)
  | intNum (n : Int)
  | floatNum (raw : String)
  | str (s : String)
  | arr (elems : List Json)
  | obj (fields : List (String × Json))
deriving Repr

/-- One lowercase hex digit. -/
def hexDigitChar (n : Nat) : Char :=
  if n < 10 then Char.ofNat (48 + n) else Char.ofNat (87 + (n - 10))

/-- The `serde_json`'s string escaping: quote, backslash, the short control
escapes, and `\u00XX` for the remaining control characters. -/
def escapeJsonChar (c : Char) : String :=
  if c == '"' then "\\\""
  else if c == '\\' then "\\\\"
  else if c == Char.ofNat 8 then "\\b"
  else if c == Char.ofNat 12 then "\\f"
  else if c == '\n' then "\\n"
  else if c == '\r' then "\\r"
  else if c == '\t' then "\\t"
  else if c.toNat < 32 then
    "\\u00" ++ String.mk [hexDigitChar (c.toNat / 16), hexDigitChar (c.toNat % 16)]
  else String.singleton c

/-- A JSON string literal. -/
def serJsonString (s : String) : String :=
  "\"" ++ String.join (s.data.map escapeJsonChar) ++ "\""

mutual

/-- Compact serialization, as `serde_json::Value::to_string`; integers
print exactly, float tokens print through `fm.render`. -/
def serJson (fm : FloatModel) : Json → String
  | .null => "null"
  | .bool true => "true"
  | .bool false => "false"
  | .intNum n => toString n
  | .floatNum raw => fm.render raw
  | .str s => serJsonString s
  | .arr xs => "[" ++ serJsonArr fm xs ++ "]"
  | .obj fs => "\x7b" ++ serJsonObj fm fs ++ "\x7d"

/-- Array elements joined with commas. -/
def serJsonArr (fm : FloatModel) : List Json → String
  | [] => ""
  | [x] => serJson fm x
  | x :: y :: rest => serJson fm x ++ "," ++ serJsonArr fm (y :: rest)

/-- Object fields joined with commas. -/
def serJsonObj (fm : FloatModel) : List (String × Json) → String
  | [] => ""
  | [(k, v)] => serJsonString k ++ ":" ++ serJson fm v
  | (k, v) :: f :: rest =>
    serJsonString k ++ ":" ++ serJson fm v ++ "," ++ serJsonObj fm (f :: rest)

end

/-- Sorted-map insertion (last value wins for equal keys), as the
`BTreeMap` underlying `serde_json`'s objects. -/
def objInsert (k : String) (v : Json) :
    List (String × Json) → List (String × Json)
  | [] => [(k, v)]
  | (k2, v2) :: rest =>
    if k = k2 then (k, v) :: rest
    else if decide (k < k2) then (k, v) :: (k2, v2) :: rest
    else (k2, v2) :: objInsert k v rest

/-- JSON whitespace. -/
def isJsonWs (c : Char) : Bool :=
  c == ' ' || c == '\t' || c == '\n' || c == '\r'

/-- Drop leading JSON whitespace. -/
def skipWs : List Char → List Char
  | [] => []
  | c :: rest => if isJsonWs c then skipWs rest else c :: rest

/-- The value of a hex digit. -/
def hexVal (c : Char) : Option Nat :=
  if 48 ≤ c.toNat ∧ c.toNat ≤ 57 then some (c.toNat - 48)
  else if 97 ≤ c.toNat ∧ c.toNat ≤ 102 then some (c.toNat - 87)
  else if 65 ≤ c.toNat ∧ c.toNat ≤ 70 then some (c.toNat - 55)
  else none

/-- Consume a literal. -/
def dropLit : List Char → List Char → Option (List Char)
  | [], cs => some cs
  | _, [] => none
  | l :: ls, c :: cs => if l = c then dropLit ls cs else none

/-- The body of a JSON string after the opening quote: characters up to
the closing quote, with escape sequences decoded; raw control characters
are rejected. -/
def parseStrBody : Nat → List Char → List Char → Option (String × List Char)
  | 0, _, _ => none
  | _ + 1, _, [] => none
  | fuel + 1, acc, c :: rest =>
    if c = '"' then some (String.mk acc.reverse, rest)
    else if c = '\\' then
      match rest with
      | [] => none
      | e :: rest2 =>
        if e = '"' then parseStrBody fuel ('"' :: acc) rest2
        else if e = '\\' then parseStrBody fuel ('\\' :: acc) rest2
        else if e = '/' then parseStrBody fuel ('/' :: acc) rest2
        else if e = 'b' then parseStrBody fuel (Char.ofNat 8 :: acc) rest2
        else if e = 'f' then parseStrBody fuel (Char.ofNat 12 :: acc) rest2
        else if e = 'n' then parseStrBody fuel ('\n' :: acc) rest2
        else if e = 'r' then parseStrBody fuel ('\r' :: acc) rest2
        else if e = 't' then parseStrBody fuel ('\t' :: acc) rest2
        else if e = 'u' then
          match rest2 with
          | h1 :: h2 :: h3 :: h4 :: rest3 =>
            match hexVal h1, hexVal h2, hexVal h3, hexVal h4 with
            | some a, some b, some c2, some d =>
              let n := ((a * 16 + b) * 16 + c2) * 16 + d
              if 0xd800 ≤ n ∧ n ≤ 0xdbff then
                -- a leading surrogate must be followed by a \uXXXX
                -- trailing surrogate; the pair decodes to one scalar
                match rest3 with
                | '\\' :: 'u' :: h5 :: h6 :: h7 :: h8 :: rest4 =>
                  match hexVal h5, hexVal h6, hexVal h7, hexVal h8 with
                  | some a2, some b2, some c3, some d2 =>
                    let m := ((a2 * 16 + b2) * 16 + c3) * 16 + d2
                    if 0xdc00 ≤ m ∧ m ≤ 0xdfff then
                      parseStrBody fuel
                        (Char.ofNat (0x10000 + (n - 0xd800) * 0x400 + (m - 0xdc00)) :: acc)
                        rest4
                    else none
                  | _, _, _, _ => none
                | _ => none
              else if 0xdc00 ≤ n ∧ n ≤ 0xdfff then none
              else parseStrBody fuel (Char.ofNat n :: acc) rest3
            | _, _, _, _ => none
          | _ => none
        else none
    else if c.toNat < 32 then none
    else parseStrBody fuel (c :: acc) rest

/-- Leading decimal digits. -/
def spanDigits : List Char → List Char × List Char
  | [] => ([], [])
  | c :: rest =>
    if 48 ≤ c.toNat ∧ c.toNat ≤ 57 then
      let (ds, tail) := spanDigits rest
      (c :: ds, tail)
    else ([], c :: rest)

/-- Digits to a natural number. -/
def digitsToNat (ds : List Char) : Nat :=
  ds.foldl (fun n c => n * 10 + (c.toNat - 48)) 0

/-- A JSON number token: `-?(0|[1-9][0-9]*)(.[0-9]+)?([eE][+-]?[0-9]+)?`.
serde_json's classification (de.rs `parse_number`): a plain integer
token becomes u64 when non-negative and in range, i64 when negative
with significand at most 2^63; `-0`, out-of-range integers, and any
token with a fraction or exponent go through `f64` — represented here
by `floatNum` holding the token, kept only when `fm.accept` says the
`f64` conversion is finite (serde_json errors otherwise). -/
def parseNumberToken (fm : FloatModel) (cs : List Char) :
    Option (Json × List Char) :=
  let (neg, cs2) := match cs with
    | '-' :: rest => (true, rest)
    | _ => (false, cs)
  match spanDigits cs2 with
  | ([], _) => none
  | (ds, rest1) =>
    if ds.length > 1 ∧ ds.headD '0' = '0' then none
    else
      let fracRes : Option (List Char × List Char) :=
        match rest1 with
        | '.' :: rest2 =>
          match spanDigits rest2 with
          | ([], _) => none
          | (fs, rest3) => some ('.' :: fs, rest3)
        | _ => some ([], rest1)
      match fracRes with
      | none => none
      | some (fracChars, rest3) =>
        let expRes : Option (List Char × List Char) :=
          match rest3 with
          | e :: rest4 =>
            if e = 'e' ∨ e = 'E' then
              let (sgn, rest5) := match rest4 with
                | '+' :: r => (['+'], r)
                | '-' :: r => (['-'], r)
                | _ => (([] : List Char), rest4)
              match spanDigits rest5 with
              | ([], _) => none
              | (es, rest6) => some (e :: (sgn ++ es), rest6)
            else some ([], rest3)
          | [] => some ([], [])
        match expRes with
        | none => none
        | some (expChars, restF) =>
          let raw := String.mk ((if neg then ['-'] else []) ++ ds ++ fracChars ++ expChars)
          let asFloat : Option (Json × List Char) :=
            if fm.accept raw then some (.floatNum raw, restF) else none
          if fracChars.isEmpty ∧ expChars.isEmpty then
            let significand := digitsToNat ds
            if neg then
              if 1 ≤ significand ∧ significand ≤ 2 ^ 63 then
                some (.intNum (-(significand : Int)), restF)
              else asFloat
            else
              if significand ≤ 2 ^ 64 - 1 then
                some (.intNum (significand : Int), restF)
              else asFloat
          else asFloat

mutual

/-- A JSON value at the head of the input (leading whitespace already
consumed). -/
def parseValue (fm : FloatModel) : Nat → List Char → Option (Json × List Char)
  | 0, _ => none
  | _ + 1, [] => none
  | fuel + 1, c :: rest =>
    if c = 'n' then (dropLit ['u', 'l', 'l'] rest).map fun cs => (.null, cs)
    else if c = 't' then (dropLit ['r', 'u', 'e'] rest).map fun cs => (.bool true, cs)
    else if c = 'f' then (dropLit ['a', 'l', 's', 'e'] rest).map fun cs => (.bool false, cs)
    else if c = '"' then (parseStrBody fuel [] rest).map fun (s, cs) => (.str s, cs)
    else if c = '[' then
      match skipWs rest with
      | ']' :: cs => some (.arr [], cs)
      | cs => parseArrItems fm fuel cs []
    else if c = '\x7b' then
      match skipWs rest with
      | '\x7d' :: cs => some (.obj [], cs)
      | cs => parseObjItems fm fuel cs []
    else parseNumberToken fm (c :: rest)

/-- Array elements from the head of one element; `acc` holds the elements
already read, in reverse. -/
def parseArrItems (fm : FloatModel) :
    Nat → List Char → List Json → Option (Json × List Char)
  | 0, _, _ => none
  | fuel + 1, cs, acc =>
    match parseValue fm fuel cs with
    | none => none
    | some (v, rest) =>
      match skipWs rest with
      | ']' :: cs2 => some (.arr (acc.reverse ++ [v]), cs2)
      | ',' :: cs2 => parseArrItems fm fuel (skipWs cs2) (v :: acc)
      | _ => none

/-- Object fields from the head of one `"key": value` pair; `acc` holds
the fields already read (kept sorted by `objInsert`). -/
def parseObjItems (fm : FloatModel) :
    Nat → List Char → List (String × Json) → Option (Json × List Char)
  | 0, _, _ => none
  | fuel + 1, cs, acc =>
    match cs with
    | '"' :: cs2 =>
      match parseStrBody fuel [] cs2 with
      | none => none
      | some (k, rest) =>
        match skipWs rest with
        | ':' :: cs3 =>
          match parseValue fm fuel (skipWs cs3) with
          | none => none
          | some (v, rest2) =>
            let acc2 := objInsert k v acc
            match skipWs rest2 with
            | '\x7d' :: cs4 => some (.obj acc2, cs4)
            | ',' :: cs4 => parseObjItems fm fuel (skipWs cs4) acc2
            | _ => none
        | _ => none
    | _ => none

end

/-- The `PermissionRequest` from octo-core permission.rs (the `id`, a fresh
UUID never read by the service, is dropped). -/
structure PermissionRequest where
  session_id : String
  tool_name : String
  action : String
  description : String
  path : Option String
deriving DecidableEq, Repr

/-- The `PermissionDecision`. -/
inductive PermissionDecision where
  | allow
  | allowPersistent
  | deny
deriving DecidableEq, Repr

/-- The two mutex-guarded sets of `CliPermissionService`, as lists
(only membership and insertion are used). -/
structure CliPermissionService where
  auto_approve_sessions : List String
  persistent_approvals : List String
deriving DecidableEq, Repr

/-- The `CliPermissionService::new`. -/
def CliPermissionService.new : CliPermissionService :=
  { auto_approve_sessions := [], persistent_approvals := [] }

/-- The `CliPermissionService::approval_key`. -/
def approval_key (req : PermissionRequest) : String :=
  req.session_id ++ ":" ++ req.tool_name ++ ":" ++ req.action

/-- What `CliPermissionService::request` returns: the decision, the
updated state, and whether the operator was prompted (the only path that
performs operator I/O). -/
structure RequestOutcome where
  decision : PermissionDecision
  state : CliPermissionService
  prompted : Bool
deriving DecidableEq, Repr

/-- The `CliPermissionService::request`.  `operator_answer` is what
`stdin.read_line` produces at the prompt: `none` for a read error, else
the line read. -/
def CliPermissionService.request (st : CliPermissionService)
    (req : PermissionRequest) (operator_answer : Option String) :
    RequestOutcome :=
  if st.auto_approve_sessions.contains req.session_id then
    { decision := .allow, state := st, prompted := false }
  else
    let key := approval_key req
    if st.persistent_approvals.contains key then
      { decision := .allow, state := st, prompted := false }
    else
      match operator_answer with
      | none => { decision := .deny, state := st, prompted := true }
      | some input =>
        let answer := input.trim.toLower
        if answer = "y" ∨ answer = "yes" ∨ answer = "" then
          { decision := .allow, state := st, prompted := true }
        else if answer = "a" ∨ answer = "always" then
          { decision := .allowPersistent,
            state := { st with persistent_approvals := key :: st.persistent_approvals },
            prompted := true }
        else { decision := .deny, state := st, prompted := true }

/-- The `CliPermissionService::auto_approve_session`. -/
def CliPermissionService.auto_approve_session (st : CliPermissionService)
    (session_id : String) : CliPermissionService :=
  { st with auto_approve_sessions := session_id :: st.auto_approve_sessions }

/-- A concrete permission request for witnesses. -/
def c6Req : PermissionRequest :=
  { session_id := "s1", tool_name := "edit", action := "edit",
    description := "Edit: /tmp/f", path := some "/tmp/f" }

/-! ## Tool errors — octo-core error.rs, the variants produced by the
modelled tools -/

/-- The `ToolError`, reduced to the variants the embedded tools produce. -/
inductive ToolErrorM where
  | invalidParams (msg : String)
  | executionFailed (msg : String)
  | permissionDenied (tool : String) (action : String)
deriving DecidableEq, Repr

/-! ## Team deletion — src/src/tools/team.rs `TeamDeleteTool::run` -/

/-- The `TeamMember` (the `joined_at` timestamp is dropped). -/
structure TeamMember where
  agent_id : String
  name : String
  agent_type : String
  model : Option String
  cwd : String
deriving DecidableEq, Repr

/-- The `TeamConfig` (the `created_at` timestamp is dropped). -/
structure TeamConfig where
  name : String
  description : String
  lead_agent_id : String
  members : List TeamMember
deriving DecidableEq, Repr

/-- The state `TeamDeleteTool::run` reads and writes: the in-process
`Option<TeamState>` (reduced to the team name, the only field this tool
reads), whether `teams/<team>/config.json` is readable and what it holds,
and whether the two directories exist. -/
structure TeamFs where
  team_state : Option String
  config : Option TeamConfig
  team_dir_exists : Bool
  tasks_dir_exists : Bool
deriving DecidableEq, Repr

/-- The `TeamDeleteTool::run`: with more than one member in a readable config,
an error result and nothing removed; otherwise both directories (and with
them the config file) are removed and the in-process state cleared.
Directory removal itself is modelled as always succeeding. -/
def team_delete_run (fs : TeamFs) : Except ToolErrorM ToolResult × TeamFs :=
  match fs.team_state with
  | none => (.error (.executionFailed "No active team"), fs)
  | some team_name =>
    let proceed : Except ToolErrorM ToolResult × TeamFs :=
      (.ok (ToolResult.success ("Team '" ++ team_name ++ "' deleted successfully.")),
        { team_state := none, config := none,
          team_dir_exists := false, tasks_dir_exists := false })
    match fs.config with
    | some config =>
      if config.members.length > 1 then
        (.ok (ToolResult.error ("Team still has " ++
          toString (config.members.length - 1) ++
          " active members. Send shutdown requests first.")), fs)
      else proceed
    | none => proceed

/-- A two-member team config. -/
def c8TwoMemberConfig : TeamConfig :=
  { name := "t", description := "d", lead_agent_id := "lead@t",
    members :=
      [{ agent_id := "lead@t", name := "lead", agent_type := "lead",
         model := none, cwd := "/w" },
       { agent_id := "w1@t", name := "w1", agent_type := "worker",
         model := none, cwd := "/w" }] }

/-- A team with two members, both directories present. -/
def c8Fs : TeamFs :=
  { team_state := some "t", config := some c8TwoMemberConfig,
    team_dir_exists := true, tasks_dir_exists := true }

/-! ## The edit tool — crates/octo-tools/src/edit.rs `EditTool::run` -/

/-- The number of non-overlapping matches of `pattern` in the text, as
`str::match_indices` counts them (an empty pattern matches at every
boundary). -/
def count_matches (pattern : List Char) : List Char → Nat
  | [] => if pattern.isEmpty then 1 else 0
  | c :: rest =>
    if pattern.isPrefixOf (c :: rest) then
      1 + count_matches pattern (List.drop (pattern.length - 1) rest)
    else count_matches pattern rest
termination_by text => text.length
decreasing_by
  all_goals simp [List.length_drop]
  all_goals omega

/-- The `str::replacen(pattern, repl, 1)`: replace the first match only. -/
def replace_first (pattern repl : List Char) : List Char → List Char
  | [] => if pattern.isEmpty then repl else []
  | c :: rest =>
    if pattern.isEmpty then repl ++ c :: rest
    else if pattern.isPrefixOf (c :: rest) then
      repl ++ List.drop (pattern.length - 1) rest
    else c :: replace_first pattern repl rest

/-- What a run of the edit tool produces: the returned result, the target
file's content afterwards (`none` when the file does not exist), and
whether the permission service was consulted. -/
structure EditOutcome where
  result : Except ToolErrorM ToolResult
  file : Option String
  permission_requested : Bool
deriving Repr

/-- The `EditTool::run` from the point where the parameters are extracted and
the path resolved (edit.rs lines 58-75 precede any file access or
permission traffic): match counting, the uniqueness guard, the permission
request (`decision` is the operator's answer) and the write. -/
def edit_tool_run (file : Option String) (path_str old_string new_string : String)
    (decision : PermissionDecision) : EditOutcome :=
  match file with
  | none =>
    { result := .ok (ToolResult.error ("File not found: " ++ path_str)),
      file := none, permission_requested := false }
  | some content =>
    let nMatches := count_matches old_string.data content.data
    if nMatches = 0 then
      { result := .ok (ToolResult.error
          "old_string not found in file. Make sure it matches exactly."),
        file := some content, permission_requested := false }
    else if nMatches > 1 then
      { result := .ok (ToolResult.error ("old_string found " ++
          toString nMatches ++ " times. It must be unique. Add more context.")),
        file := some content, permission_requested := false }
    else
      match decision with
      | .deny =>
        { result := .error (.permissionDenied "edit" path_str),
          file := some content, permission_requested := true }
      | _ =>
        { result := .ok (ToolResult.success ("Edited " ++ path_str ++
            ". Replaced " ++ toString old_string.utf8ByteSize ++
            " chars with " ++ toString new_string.utf8ByteSize ++ " chars.")),
          file := some (String.mk
            (replace_first old_string.data new_string.data content.data)),
          permission_requested := true }

/-! ## Team task store — src/src/core/team.rs file I/O over
`tasks/<team>/<id>.json`, modelled as a list of tasks keyed by id -/

/-- The `TaskStatus`. -/
inductive TaskStatus where
  | pending
  | inProgress
  | completed
deriving DecidableEq, Repr

/-- The `TaskItem` (the opaque `metadata` JSON blob, which no modelled path
reads or writes, is dropped). -/
structure TaskItem where
  id : String
  subject : String
  description : String
  status : TaskStatus
  active_form : Option String
  owner : Option String
  blocks : List String
  blocked_by : List String
deriving DecidableEq, Repr

/-- The `write_task`: create or overwrite `<id>.json`. -/
def write_task (store : List TaskItem) (t : TaskItem) : List TaskItem :=
  if store.any (fun u => u.id == t.id) then
    store.map fun u => if u.id == t.id then t else u
  else store ++ [t]

/-- The `read_task`: the stored task with the given id. -/
def read_task (store : List TaskItem) (id : String) : Option TaskItem :=
  store.find? fun u => u.id == id

/-- The `delete_task`: remove `<id>.json` (a no-op when absent). -/
def delete_task (store : List TaskItem) (id : String) : List TaskItem :=
  store.filter fun u => u.id != id

/-- The sort key of `list_tasks`: `id.parse::<u64>().unwrap_or(0)`. -/
def taskIdKey (t : TaskItem) : Nat := t.id.toNat?.getD 0

/-- The `list_tasks`: every stored task, sorted by numeric id.  (The
directory iteration order feeding the stable sort is unspecified; the
model sorts the store's order.  Nothing settled here depends on the order
of equal keys.) -/
def list_tasks (store : List TaskItem) : List TaskItem :=
  store.mergeSort fun a b => decide (taskIdKey a ≤ taskIdKey b)

/-! ## Task update — crates/octo-tools/src/task_mgmt.rs
`TaskUpdateTool::run`, from the parsed `params` JSON on -/

/-- The `serde_json::Value` string indexing (`params["k"]`): the object's
field, `Null` when absent or not an object. -/
def Json.getField (j : Json) (k : String) : Json :=
  match j with
  | .obj fields => (fields.lookup k).getD .null
  | _ => .null

/-- The `Value::as_str`. -/
def Json.asStr : Json → Option String
  | .str s => some s
  | _ => none

/-- The `Value::as_array`. -/
def Json.asArr : Json → Option (List Json)
  | .arr xs => some xs
  | _ => none

/-- The `if let Some(s) = params["subject"].as_str()`. -/
def upd_subject (params : Json) (t : TaskItem) : TaskItem :=
  match (params.getField "subject").asStr with
  | some s => { t with subject := s }
  | none => t

/-- The `if let Some(d) = params["description"].as_str()`. -/
def upd_description (params : Json) (t : TaskItem) : TaskItem :=
  match (params.getField "description").asStr with
  | some d => { t with description := d }
  | none => t

/-- The `if let Some(o) = params["owner"].as_str()`. -/
def upd_owner (params : Json) (t : TaskItem) : TaskItem :=
  match (params.getField "owner").asStr with
  | some o => { t with owner := some o }
  | none => t

/-- The `if let Some(af) = params["active_form"].as_str()`. -/
def upd_active_form (params : Json) (t : TaskItem) : TaskItem :=
  match (params.getField "active_form").asStr with
  | some af => { t with active_form := some af }
  | none => t

/-- Append the string elements of `arr` not already present. -/
def push_new_ids (arr : List Json) (ids : List String) : List String :=
  arr.foldl (fun bs v =>
    match v.asStr with
    | some id => if bs.contains id then bs else bs ++ [id]
    | none => bs) ids

/-- The `add_blocks` loop. -/
def upd_add_blocks (params : Json) (t : TaskItem) : TaskItem :=
  match (params.getField "add_blocks").asArr with
  | some arr => { t with blocks := push_new_ids arr t.blocks }
  | none => t

/-- The `add_blocked_by` loop. -/
def upd_add_blocked_by (params : Json) (t : TaskItem) : TaskItem :=
  match (params.getField "add_blocked_by").asArr with
  | some arr => { t with blocked_by := push_new_ids arr t.blocked_by }
  | none => t

/-- The non-status field updates of `TaskUpdateTool::run` (lines 292-322),
in source order. -/
def apply_nonstatus_updates (params : Json) (t : TaskItem) : TaskItem :=
  upd_add_blocked_by params (upd_add_blocks params (upd_active_form params
    (upd_owner params (upd_description params (upd_subject params t)))))

/-- The status arm (lines 279-291) followed by the other updates: an
unrecognized status string is `InvalidParams`. -/
def apply_task_updates (params : Json) (task : TaskItem) :
    Except ToolErrorM TaskItem :=
  match (params.getField "status").asStr with
  | some "pending" =>
    .ok (apply_nonstatus_updates params { task with status := .pending })
  | some "in_progress" =>
    .ok (apply_nonstatus_updates params { task with status := .inProgress })
  | some "completed" =>
    .ok (apply_nonstatus_updates params { task with status := .completed })
  | some other => .error (.invalidParams ("invalid status: " ++ other))
  | none => .ok (apply_nonstatus_updates params task)

/-- One iteration of the auto-unblock loop (lines 330-335): a task other
than the completed one whose `blocked_by` holds the completed id is
rewritten with that id removed. -/
def auto_unblock_step (tid : String) (st : List TaskItem) (other : TaskItem) :
    List TaskItem :=
  if other.id ≠ tid ∧ tid ∈ other.blocked_by then
    write_task st { other with blocked_by := other.blocked_by.filter fun i => i != tid }
  else st

/-- The auto-unblock pass (lines 328-337): iterate `list_tasks` of the
store as written so far, rewriting each blocked task. -/
def auto_unblock (store : List TaskItem) (tid : String) : List TaskItem :=
  (list_tasks store).foldl (auto_unblock_step tid) store

/-- How `TaskUpdateTool::run` ends (the pretty-printed success payload is
represented by the task itself). -/
inductive TaskUpdateOutcome where
  | deleted (id : String)
  | updated (t : TaskItem)
  | err (e : ToolErrorM)
deriving DecidableEq, Repr

/-- The `TaskUpdateTool::run` from the parsed `params` on (lines 264-342):
the `deleted` shortcut, the read, the field updates, the write, and the
auto-unblock pass when the new status is Completed. -/
def task_update_apply (store : List TaskItem) (params : Json) :
    TaskUpdateOutcome × List TaskItem :=
  match (params.getField "task_id").asStr with
  | none => (.err (.invalidParams "missing 'task_id'"), store)
  | some task_id =>
    if (params.getField "status").asStr = some "deleted" then
      (.deleted task_id, delete_task store task_id)
    else
      match read_task store task_id with
      | none => (.err (.executionFailed "task not found"), store)
      | some task =>
        match apply_task_updates params task with
        | .error e => (.err e, store)
        | .ok task2 =>
          let store1 := write_task store task2
          if task2.status = .completed then
            (.updated task2, auto_unblock store1 task2.id)
          else (.updated task2, store1)

/-- The update applied to every task by a completed `tid`: drop `tid`
from `blocked_by` (the identity on tasks not blocked by it and on `tid`
itself). -/
def unblockOf (tid : String) (u : TaskItem) : TaskItem :=
  if u.id ≠ tid ∧ tid ∈ u.blocked_by then
    { u with blocked_by := u.blocked_by.filter fun i => i != tid }
  else u

/-! ## Spec-worded token estimator (for claim C5 comparison only)

Modelled from the spec's words, not from the source: "Estimate tokens via
ceil(chars/4) for every text-bearing part; 20 tokens fixed overhead per
ToolCall; 10 per ToolResult; 1000 per image", summed over the parts. -/

/-- The spec's per-part token formula (ceiling division, no clamp). -/
def specPartTokenEstimate : ContentPart → Nat
  | .text t => (t.length + 3) / 4
  | .reasoning t => (t.length + 3) / 4
  | .toolCall _ _ input => (input.length + 3) / 4 + 20
  | .toolResult _ content _ => (content.length + 3) / 4 + 10
  | .image _ _ => 1000
  | .imageUrl _ _ => 1000
  | .finish _ => 0

/-- The spec's per-message token estimate: the plain sum of the part
estimates. -/
def specMessageTokenEstimate (msg : Message) : Nat :=
  (msg.parts.map specPartTokenEstimate).sum

/-! ## Concrete inputs used by counterexamples and witnesses -/

/-- A first user message estimated at 10 tokens. -/
def c1m0 : Message :=
  { role := .user, parts := [.text "0123456789012345678901234567890123456789"] }

/-- An assistant message whose single part is a ToolCall (20 tokens). -/
def c1m1 : Message := { role := .assistant, parts := [.toolCall "c1" "bash" ""] }

/-- The tool message answering `c1m1`, estimated at 13 tokens. -/
def c1m2 : Message :=
  { role := .tool, parts := [.toolResult "c1" "xxxxxxxxxxxx" false] }

/-- A small user message estimated at 1 token. -/
def c1mU : Message := { role := .user, parts := [.text "abcd"] }

/-- Seven messages whose ToolCall/ToolResult pairing is intact; with a
context window of 248 and an empty system prompt, the trim budget is 36
tokens, the head + tail + `c1m1` total 34 tokens and adding the 13 tokens
of `c1m2` overflows, so `trim_messages_to_fit` drops exactly `c1m2` and
orphans the call `c1`. -/
def c1ExMessages : List Message := [c1m0, c1m1, c1m2, c1mU, c1mU, c1mU, c1mU]

/-- A registered tool that always succeeds with content `"ok"`. -/
def c2EchoTool : ToolImpl :=
  { name := "echo", run := fun _ => .ok (ToolResult.success "ok") }

/-- An assistant message making two tool calls to `echo`. -/
def c2Assistant : Message :=
  { role := .assistant,
    parts := [.text "hi", .toolCall "id1" "echo" "x", .toolCall "id2" "echo" "y"] }

/-- The message list a ToolUse turn on `c2Assistant` produces. -/
def c2Expected : List Message :=
  [c2Assistant,
   Message.new_tool_result
     [.toolResult "id1" "<tool_output tool=\"echo\">\nok\n</tool_output>" false,
      .toolResult "id2" "<tool_output tool=\"echo\">\nok\n</tool_output>" false]]

/-- An assistant message with one empty Text part. -/
def c5ExTextMsg : Message := { role := .assistant, parts := [.text "abcde"] }

/-- An assistant message with no parts at all. -/
def c5ExEmptyMsg : Message := { role := .assistant, parts := [] }


/-- A pending task with id "1" and nothing blocking it. -/
def c7T1 : TaskItem :=
  { id := "1", subject := "s1", description := "d1", status := .pending,
    active_form := none, owner := none, blocks := [], blocked_by := [] }

/-- A task with id "2" blocked by task "1". -/
def c7T2 : TaskItem :=
  { id := "2", subject := "s2", description := "d2", status := .pending,
    active_form := none, owner := none, blocks := [], blocked_by := ["1"] }

/-- A store holding `c7T1` and `c7T2`. -/
def c7Store : List TaskItem := [c7T1, c7T2]

/-- The parsed params of `task_update(task_id = "1", status = "completed")`. -/
def c7Params : Json := .obj [("status", .str "completed"), ("task_id", .str "1")]

end Octo

namespace Octo

/-! ## Helper lemmas on trimming -/

/-- The `trim_scan` never moves the index backwards and advances at most once
per middle message. -/
theorem trim_scan_bounds (budget : Nat) :
    ∀ (ms : List Message) (current i : Nat),
      i ≤ trim_scan budget current i ms ∧
        trim_scan budget current i ms ≤ i + ms.length := by
  intro ms
  induction ms with
  | nil => intro current i; simp [trim_scan]
  | cons m rest ih =>
    intro current i
    simp only [trim_scan]
    split
    · simp
    · have h := ih (current + estimate_message_tokens m) (i + 1)
      constructor
      · omega
      · simpa [Nat.add_assoc, Nat.add_comm 1 rest.length] using h.2

/-- Structure of the result of `trim_messages_to_fit`: either the list is
returned unchanged, or the result is `take i ++ drop (length - 4)` for a
single cut point `i` with `1 ≤ i ≤ length - 4`. -/
theorem trim_structure (messages : List Message) (cw : Nat) (sp : String) :
    trim_messages_to_fit messages cw sp = messages ∨
      ∃ i, 1 ≤ i ∧ i ≤ messages.length - 4 ∧
        trim_messages_to_fit messages cw sp =
          messages.take i ++ messages.drop (messages.length - 4) := by
  unfold trim_messages_to_fit
  dsimp only
  split
  · exact Or.inl rfl
  · split
    · exact Or.inl rfl
    · next hlen =>
      have hlen6 : 6 ≤ messages.length := by
        rcases Nat.le_total messages.length 4 with h | h
        · simp [Nat.min_eq_right h] at hlen
        · have h4 : min 4 messages.length = 4 := Nat.min_eq_left h
          have h1 : min 1 messages.length = 1 := Nat.min_eq_left (by omega)
          rw [h4, h1] at hlen
          omega
      have h4 : min 4 messages.length = 4 := Nat.min_eq_left (by omega)
      have h1 : min 1 messages.length = 1 := Nat.min_eq_left (by omega)
      rw [h4, h1]
      have hmidlen :
          ((messages.drop 1).take (messages.length - 4 - 1)).length =
            messages.length - 4 - 1 := by
        rw [List.length_take, List.length_drop]
        omega
      set mid := (messages.drop 1).take (messages.length - 4 - 1) with hmid
      set ht : Nat :=
        ((messages.take 1).map estimate_message_tokens).sum +
          ((messages.drop (messages.length - 4)).map estimate_message_tokens).sum
      have hb := trim_scan_bounds (trim_budget cw sp) mid ht 1
      rw [hmidlen] at hb
      set r := trim_scan (trim_budget cw sp) ht 1 mid with hr
      split
      · next hlt =>
        exact Or.inr ⟨r, hb.1, by omega, rfl⟩
      · exact Or.inl rfl

/-- When trimming returns an unchanged list. -/
theorem trim_noop (messages : List Message) (cw : Nat) (sp : String)
    (h : (messages.map estimate_message_tokens).sum ≤ trim_budget cw sp ∨
      messages.length ≤ 5) :
    trim_messages_to_fit messages cw sp = messages := by
  unfold trim_messages_to_fit
  dsimp only
  split
  · rfl
  · next htot =>
    have hlen : messages.length ≤ 5 := h.resolve_left htot
    split
    · rfl
    · next hgt =>
      exfalso
      rcases Nat.le_total messages.length 4 with h4 | h4
      · simp [Nat.min_eq_right h4] at hgt
      · rw [Nat.min_eq_left h4, Nat.min_eq_left (by omega : 1 ≤ messages.length)] at hgt
        omega

/-! ## Claim C10 — frame property of `trim_messages_to_fit` -/

/-- C10: `trim_messages_to_fit` removes at most one contiguous run of
messages strictly between the first message and the last 4: the result is
either the unchanged list or `take i ++ drop (length - 4)` with
`1 ≤ i ≤ length - 4` (so every retained message is unchanged and in its
original relative order); and when the total estimated tokens already fit
within the 75% budget, or the list has at most 5 messages, the list is
returned unmodified. -/
theorem trim_messages_frame (messages : List Message) (cw : Nat) (sp : String) :
    (trim_messages_to_fit messages cw sp = messages ∨
      ∃ i, 1 ≤ i ∧ i ≤ messages.length - 4 ∧
        trim_messages_to_fit messages cw sp =
          messages.take i ++ messages.drop (messages.length - 4)) ∧
    (((messages.map estimate_message_tokens).sum ≤ trim_budget cw sp ∨
        messages.length ≤ 5) →
      trim_messages_to_fit messages cw sp = messages) :=
  ⟨trim_structure messages cw sp, trim_noop messages cw sp⟩

/-! ## Claim C1 — what trimming retains -/

/-- C1 (amended): trimming always retains the first message of the list
(in particular the first user message whenever the list starts with one)
and the last 4 messages, unchanged.  The pairing clause of the original
claim is refuted by `trim_orphans_tool_call_counterexample`. -/
theorem trim_retains_head_and_last_four (messages : List Message) (cw : Nat)
    (sp : String) :
    (trim_messages_to_fit messages cw sp).head? = messages.head? ∧
      (trim_messages_to_fit messages cw sp).drop
          ((trim_messages_to_fit messages cw sp).length - 4) =
        messages.drop (messages.length - 4) := by
  rcases trim_structure messages cw sp with h | ⟨i, h1, h2, h⟩
  · rw [h]
    exact ⟨rfl, rfl⟩
  · rw [h]
    have hlen : messages.length ≥ 5 := by omega
    have htake : (messages.take i).length = i := by
      rw [List.length_take]
      omega
    constructor
    · cases messages with
      | nil => simp at hlen
      | cons m tl =>
        cases i with
        | zero => omega
        | succ j => simp [List.take_succ_cons]
    · have hdroplen : (messages.drop (messages.length - 4)).length = 4 := by
        rw [List.length_drop]
        omega
      rw [List.length_append, htake, hdroplen]
      have : i + 4 - 4 = (messages.take i).length := by omega
      rw [this, List.drop_left]

/-- C1 counterexample: on `c1ExMessages` (pairing intact) with context
window 248 and empty system prompt, trimming drops exactly the tool message
`c1m2`, leaving the ToolCall `c1` of the retained assistant message with no
matching ToolResult in the retained slice. -/
theorem trim_orphans_tool_call_counterexample :
    noOrphanToolCalls c1ExMessages = true ∧
      trim_messages_to_fit c1ExMessages 248 "" =
        [c1m0, c1m1, c1mU, c1mU, c1mU, c1mU] ∧
      noOrphanToolCalls (trim_messages_to_fit c1ExMessages 248 "") = false := by
  refine ⟨by decide, by decide, by decide⟩

/-! ## Claim C5 — the token estimate -/

/-- C5 counterexample: for a single Text part of 5 characters the code's
estimate is `5 / 4 = 1` while the spec's formula gives `ceil(5/4) = 2`; and
for a message with no parts the code clamps to 1 while the spec's sum is 0. -/
theorem token_estimate_counterexample :
    estimate_message_tokens c5ExTextMsg = 1 ∧
      specMessageTokenEstimate c5ExTextMsg = 2 ∧
      estimate_message_tokens c5ExEmptyMsg = 1 ∧
      specMessageTokenEstimate c5ExEmptyMsg = 0 := by
  refine ⟨by decide, by decide, by decide, by decide⟩

/-- Folding part estimates from `n` is `n` plus their sum. -/
theorem foldl_estimate_eq_sum (l : List ContentPart) (n : Nat) :
    l.foldl (fun total part => total + ContentPart.estimatedTokens part) n =
      n + (l.map ContentPart.estimatedTokens).sum := by
  induction l generalizing n with
  | nil => simp
  | cons p rest ih =>
    simp only [List.foldl_cons, List.map_cons, List.sum_cons, ih]
    omega

/-- C5 (amended): the estimate used by context trimming equals, summed over
the message's parts, `floor(bytes/4)` for every text-bearing part (Text,
Reasoning, ToolCall input, ToolResult content) plus 20 per ToolCall, 10 per
ToolResult and 1000 per image part, the total clamped below at 1. -/
theorem token_estimate_amended (msg : Message) :
    estimate_message_tokens msg =
      ((msg.parts.map ContentPart.estimatedTokens).sum).max 1 := by
  unfold estimate_message_tokens
  rw [foldl_estimate_eq_sum]
  simp

/-! ## Claim C2 — one ToolResult per ToolCall, matching ids, same order -/

/-- A successful pass over the calls yields one ToolResult part per call,
with the matching id, in the calls' order. -/
theorem run_tool_calls_ids (tools : List ToolImpl) :
    ∀ (calls : List (String × String × String)) (parts : List ContentPart),
      run_tool_calls tools calls = .ok parts →
        parts.map toolResultIdOf = calls.map (fun c => some c.1) := by
  intro calls
  induction calls with
  | nil =>
    intro parts h
    simp only [run_tool_calls] at h
    cases h
    rfl
  | cons c rest ih =>
    intro parts h
    obtain ⟨call_id, call_name, call_input⟩ := c
    simp only [run_tool_calls] at h
    cases hfind : tools.find? (fun t => t.name == call_name) with
    | none => rw [hfind] at h; cases h
    | some tool =>
      rw [hfind] at h
      cases hrest : run_tool_calls tools rest with
      | error e => simp only [hrest] at h; cases h
      | ok tailParts =>
        simp only [hrest] at h
        cases h
        simp only [List.map_cons, toolResultIdOf, ih tailParts hrest]

/-- C2: whenever every called tool name resolves (the ToolUse turn
succeeds), the agent appends, after the assistant message, exactly one
tool-role message whose parts are exactly one ToolResult per ToolCall part
of that assistant message, with matching `tool_call_id`s, in the order the
ToolCall parts appear. -/
theorem agent_tool_use_step_pairs (tools : List ToolImpl)
    (messages : List Message) (am : Message) (res : List Message)
    (h : agent_tool_use_step tools messages am = .ok res) :
    ∃ parts, res = messages ++ [am, Message.new_tool_result parts] ∧
      (Message.new_tool_result parts).role = .tool ∧
      parts.map toolResultIdOf = am.tool_calls.map (fun c => some c.1) := by
  unfold agent_tool_use_step at h
  cases hrun : run_tool_calls tools am.tool_calls with
  | error e => rw [hrun] at h; cases h
  | ok parts =>
    rw [hrun] at h
    cases h
    exact ⟨parts, rfl, rfl, run_tool_calls_ids tools am.tool_calls parts hrun⟩

/-- C2 witness: the ToolUse turn on `c2Assistant` with the `echo` tool. -/
theorem agent_tool_use_step_pairs_witness :
    ∃ parts, c2Expected = [] ++ [c2Assistant, Message.new_tool_result parts] ∧
      (Message.new_tool_result parts).role = .tool ∧
      parts.map toolResultIdOf = c2Assistant.tool_calls.map (fun c => some c.1) :=
  agent_tool_use_step_pairs [c2EchoTool] [] c2Assistant c2Expected (by rfl)

/-! ## Claim C3 — the Retry-After header and the actual wait -/

/-- C3: with the first attempt answered by HTTP 429 carrying
`Retry-After: 7` and the second attempt succeeding, the adapter waits
`compute_backoff(1, None)` — 2000 ms at zero jitter — before the next
attempt, not the header's `7 × 1000` ms; the `server_retry_ms` branch of
`compute_backoff` would honour it, but no call site passes it. -/
theorem retry_after_header_ignored_for_wait :
    stream_response_retry (fun _ => 0) c3Outcome = ([2000], .success 1) ∧
      compute_backoff (fun _ => 0) 1 (some 7000) = 7000 ∧
      (2000 : Nat) ≠ 7000 := by
  refine ⟨by decide, rfl, by decide⟩

/-! ## Claim C4 — assistant message conversion to wire JSON -/

/-- C6: a session put in the auto-approve set (as `auto_approve_session`
does) short-circuits every request for it to Allow with no operator
prompt; with the session not auto-approved, a recorded persistent key
short-circuits to Allow with no prompt; after a request returns
AllowPersistent, every request with the same `(session, tool, action)`
triple is allowed without a prompt; in the remaining case the operator is
prompted; and neither set ever loses an entry. -/
theorem permission_lookup_order (st : CliPermissionService)
    (req : PermissionRequest) (ans : Option String) (sid : String) :
    (req.session_id ∈ st.auto_approve_sessions →
      st.request req ans =
        { decision := .allow, state := st, prompted := false }) ∧
    (req.session_id = sid →
      (st.auto_approve_session sid).request req ans =
        { decision := .allow, state := st.auto_approve_session sid,
          prompted := false }) ∧
    (req.session_id ∉ st.auto_approve_sessions →
      approval_key req ∈ st.persistent_approvals →
      st.request req ans =
        { decision := .allow, state := st, prompted := false }) ∧
    (∀ req2 ans2, (st.request req ans).decision = .allowPersistent →
      req2.session_id = req.session_id → req2.tool_name = req.tool_name →
      req2.action = req.action →
      (st.request req ans).state.request req2 ans2 =
        { decision := .allow, state := (st.request req ans).state,
          prompted := false }) ∧
    (req.session_id ∉ st.auto_approve_sessions →
      approval_key req ∉ st.persistent_approvals →
      (st.request req ans).prompted = true) ∧
    (∀ s ∈ st.auto_approve_sessions,
      s ∈ (st.request req ans).state.auto_approve_sessions) ∧
    (∀ k ∈ st.persistent_approvals,
      k ∈ (st.request req ans).state.persistent_approvals) := by
  have hkey : ∀ r2 : PermissionRequest, r2.session_id = req.session_id →
      r2.tool_name = req.tool_name → r2.action = req.action →
      approval_key r2 = approval_key req := by
    intro r2 h1 h2 h3
    unfold approval_key
    rw [h1, h2, h3]
  refine ⟨?_, ?_, ?_, ?_, ?_, ?_, ?_⟩
  · intro hmem
    have hb : st.auto_approve_sessions.contains req.session_id = true :=
      List.elem_iff.mpr hmem
    simp only [CliPermissionService.request]
    rw [if_pos hb]
  · intro hsid
    subst hsid
    have hb : (st.auto_approve_session req.session_id).auto_approve_sessions.contains
        req.session_id = true :=
      List.elem_iff.mpr (List.mem_cons_self _ _)
    simp only [CliPermissionService.request]
    rw [if_pos hb]
  · intro hnomem hper
    have hb1 : ¬ (st.auto_approve_sessions.contains req.session_id = true) :=
      fun h => hnomem (List.elem_iff.mp h)
    have hb2 : st.persistent_approvals.contains (approval_key req) = true :=
      List.elem_iff.mpr hper
    simp only [CliPermissionService.request]
    rw [if_neg hb1, if_pos hb2]
  · intro req2 ans2 hdec h1 h2 h3
    by_cases hb1 : st.auto_approve_sessions.contains req.session_id = true
    · simp only [CliPermissionService.request] at hdec
      rw [if_pos hb1] at hdec
      cases hdec
    by_cases hb2 : st.persistent_approvals.contains (approval_key req) = true
    · simp only [CliPermissionService.request] at hdec
      rw [if_neg hb1, if_pos hb2] at hdec
      cases hdec
    cases ans with
    | none =>
      simp only [CliPermissionService.request] at hdec
      rw [if_neg hb1, if_neg hb2] at hdec
      cases hdec
    | some input =>
      by_cases hy : input.trim.toLower = "y" ∨ input.trim.toLower = "yes" ∨
          input.trim.toLower = ""
      · simp only [CliPermissionService.request] at hdec
        rw [if_neg hb1, if_neg hb2, if_pos hy] at hdec
        cases hdec
      by_cases ha : input.trim.toLower = "a" ∨ input.trim.toLower = "always"
      · have hreq : st.request req (some input) =
            RequestOutcome.mk .allowPersistent
              (CliPermissionService.mk st.auto_approve_sessions
                (approval_key req :: st.persistent_approvals)) true := by
          simp only [CliPermissionService.request]
          rw [if_neg hb1, if_neg hb2, if_neg hy, if_pos ha]
        rw [hreq]
        dsimp only
        by_cases hb3 : st.auto_approve_sessions.contains req2.session_id = true
        · simp only [CliPermissionService.request]
          rw [if_pos hb3]
        · have hb4 : (approval_key req :: st.persistent_approvals).contains
              (approval_key req2) = true := by
            rw [hkey req2 h1 h2 h3]
            exact List.elem_iff.mpr
              (List.mem_cons_self (approval_key req) st.persistent_approvals)
          simp only [CliPermissionService.request]
          rw [if_neg hb3, if_pos hb4]
      · simp only [CliPermissionService.request] at hdec
        rw [if_neg hb1, if_neg hb2, if_neg hy, if_neg ha] at hdec
        cases hdec
  · intro hnomem hper
    have hb1 : ¬ (st.auto_approve_sessions.contains req.session_id = true) :=
      fun h => hnomem (List.elem_iff.mp h)
    have hb2 : ¬ (st.persistent_approvals.contains (approval_key req) = true) :=
      fun h => hper (List.elem_iff.mp h)
    simp only [CliPermissionService.request]
    rw [if_neg hb1, if_neg hb2]
    cases ans with
    | none => rfl
    | some input =>
      simp only
      split
      · rfl
      · split <;> rfl
  · intro s hs
    by_cases hb1 : st.auto_approve_sessions.contains req.session_id = true
    · simp only [CliPermissionService.request]
      rw [if_pos hb1]
      exact hs
    by_cases hb2 : st.persistent_approvals.contains (approval_key req) = true
    · simp only [CliPermissionService.request]
      rw [if_neg hb1, if_pos hb2]
      exact hs
    simp only [CliPermissionService.request]
    rw [if_neg hb1, if_neg hb2]
    cases ans with
    | none => exact hs
    | some input =>
      simp only
      split
      · exact hs
      · split
        · exact hs
        · exact hs
  · intro k hk
    by_cases hb1 : st.auto_approve_sessions.contains req.session_id = true
    · simp only [CliPermissionService.request]
      rw [if_pos hb1]
      exact hk
    by_cases hb2 : st.persistent_approvals.contains (approval_key req) = true
    · simp only [CliPermissionService.request]
      rw [if_neg hb1, if_pos hb2]
      exact hk
    simp only [CliPermissionService.request]
    rw [if_neg hb1, if_neg hb2]
    cases ans with
    | none => exact hk
    | some input =>
      simp only
      split
      · exact hk
      · split
        · exact List.mem_cons_of_mem (approval_key req) hk
        · exact hk

/-! ## Claim C8 — team_delete refuses with members present -/

/-- C8: when the readable team config lists more than one member,
`team_delete` returns the shutdown-first error result and changes nothing;
with at most one member it removes both `teams/<team>` and `tasks/<team>`
and clears the in-process team state. -/
theorem team_delete_behaviour (fs : TeamFs) (team : String) (cfg : TeamConfig)
    (hstate : fs.team_state = some team) (hcfg : fs.config = some cfg) :
    (1 < cfg.members.length →
      team_delete_run fs =
        (.ok (ToolResult.error ("Team still has " ++
          toString (cfg.members.length - 1) ++
          " active members. Send shutdown requests first.")), fs)) ∧
    (cfg.members.length ≤ 1 →
      team_delete_run fs =
        (.ok (ToolResult.success ("Team '" ++ team ++ "' deleted successfully.")),
          TeamFs.mk none none false false)) := by
  unfold team_delete_run
  rw [hstate, hcfg]
  constructor
  · intro hgt
    simp only
    rw [if_pos hgt]
  · intro hle
    simp only
    rw [if_neg (by omega : ¬ cfg.members.length > 1)]

/-- C8 witness: `c8Fs` has two members, so the refusal branch fires; a
single-member variant deletes. -/
theorem team_delete_behaviour_witness :
    (1 < c8TwoMemberConfig.members.length →
      team_delete_run c8Fs =
        (.ok (ToolResult.error ("Team still has " ++
          toString (c8TwoMemberConfig.members.length - 1) ++
          " active members. Send shutdown requests first.")), c8Fs)) ∧
    (c8TwoMemberConfig.members.length ≤ 1 →
      team_delete_run c8Fs =
        (.ok (ToolResult.success ("Team '" ++ "t" ++ "' deleted successfully.")),
          TeamFs.mk none none false false)) :=
  team_delete_behaviour c8Fs "t" c8TwoMemberConfig rfl rfl

/-! ## Claim C9 — the edit tool's uniqueness guard and permission gate -/

/-- C9: with the target file present, a zero or multiple match count
returns an error ToolResult with the file untouched and the permission
service never consulted; the permission prompt happens exactly when the
match count is 1; and a Deny decision also leaves the file unchanged. -/
theorem edit_tool_guard (content path old new : String)
    (decision : PermissionDecision) :
    ((count_matches old.data content.data = 0 ∨
        1 < count_matches old.data content.data) →
      (∃ msg, (edit_tool_run (some content) path old new decision).result =
        .ok (ToolResult.error msg)) ∧
      (edit_tool_run (some content) path old new decision).file = some content ∧
      (edit_tool_run (some content) path old new decision).permission_requested
        = false) ∧
    ((edit_tool_run (some content) path old new decision).permission_requested
        = true ↔ count_matches old.data content.data = 1) ∧
    (decision = .deny →
      (edit_tool_run (some content) path old new decision).file = some content ∧
      (count_matches old.data content.data = 1 →
        (edit_tool_run (some content) path old new decision).result =
          .error (.permissionDenied "edit" path))) := by
  by_cases h0 : count_matches old.data content.data = 0
  · refine ⟨fun _ => ⟨⟨"old_string not found in file. Make sure it matches exactly.", ?_⟩,
      ?_, ?_⟩, ⟨fun hp => ?_, fun h1 => absurd h1 (by omega)⟩,
      fun hd => ⟨?_, fun h1 => absurd h1 (by omega)⟩⟩
    · simp [edit_tool_run, h0]
    · simp [edit_tool_run, h0]
    · simp [edit_tool_run, h0]
    · exfalso
      revert hp
      simp [edit_tool_run, h0]
    · simp [edit_tool_run, h0]
  · by_cases h2 : 1 < count_matches old.data content.data
    · refine ⟨fun _ => ⟨⟨"old_string found " ++
          toString (count_matches old.data content.data) ++
          " times. It must be unique. Add more context.", ?_⟩, ?_, ?_⟩,
        ⟨fun hp => ?_, fun h1 => absurd h1 (by omega)⟩,
        fun hd => ⟨?_, fun h1 => absurd h1 (by omega)⟩⟩
      · simp [edit_tool_run, h0, h2]
      · simp [edit_tool_run, h0, h2]
      · simp [edit_tool_run, h0, h2]
      · exfalso
        revert hp
        simp [edit_tool_run, h0, h2]
      · simp [edit_tool_run, h0, h2]
    · have h1 : count_matches old.data content.data = 1 := by omega
      refine ⟨fun hc => absurd h1 (by omega), ⟨fun _ => h1, fun _ => ?_⟩,
        fun hd => ?_⟩
      · cases decision <;> simp [edit_tool_run, h0, h2]
      · subst hd
        exact ⟨by simp [edit_tool_run, h0, h2], fun _ => by
          simp [edit_tool_run, h0, h2]⟩

end Octo

namespace Octo

theorem unblockOf_id (tid : String) (u : TaskItem) : (unblockOf tid u).id = u.id := by
  unfold unblockOf
  split <;> rfl

theorem write_task_present (store : List TaskItem) (t : TaskItem)
    (h : store.any (fun u => u.id == t.id) = true) :
    write_task store t = store.map fun u => if u.id == t.id then t else u := by
  unfold write_task
  rw [if_pos h]

theorem read_task_map (f : TaskItem → TaskItem) (hf : ∀ u, (f u).id = u.id) :
    ∀ (store : List TaskItem) (i : String),
      read_task (store.map f) i = (read_task store i).map f := by
  intro store
  induction store with
  | nil => intro i; rfl
  | cons u rest ih =>
    intro i
    unfold read_task
    simp only [List.map_cons, List.find?]
    rw [hf u]
    cases hb : u.id == i with
    | true => rfl
    | false => exact ih i

theorem read_task_of_mem (store : List TaskItem)
    (hnd : (store.map TaskItem.id).Nodup) (t : TaskItem) (ht : t ∈ store) :
    read_task store t.id = some t := by
  induction store with
  | nil => cases ht
  | cons u rest ih =>
    simp only [List.map_cons, List.nodup_cons] at hnd
    unfold read_task
    simp only [List.find?]
    rcases List.mem_cons.mp ht with rfl | hmem
    · rw [beq_self_eq_true]
    · have hne : (u.id == t.id) = false := by
        rw [beq_eq_false_iff_ne]
        intro he
        exact hnd.1 (he ▸ List.mem_map_of_mem TaskItem.id hmem)
      rw [hne]
      exact ih hnd.2 hmem

theorem read_task_id_mem (store : List TaskItem) (i : String) (t : TaskItem)
    (h : read_task store i = some t) : t.id = i ∧ t ∈ store := by
  refine ⟨?_, List.mem_of_find?_eq_some h⟩
  have := List.find?_some h
  exact eq_of_beq this

theorem eq_of_mem_nodup_id (store : List TaskItem)
    (hnd : (store.map TaskItem.id).Nodup) (u v : TaskItem)
    (hu : u ∈ store) (hv : v ∈ store) (hid : u.id = v.id) : u = v := by
  have h1 := read_task_of_mem store hnd u hu
  have h2 := read_task_of_mem store hnd v hv
  rw [hid] at h1
  rw [h1] at h2
  exact Option.some_injective _ h2

theorem auto_unblock_step_eq (tid : String) (st : List TaskItem) (o : TaskItem)
    (hnd : (st.map TaskItem.id).Nodup) (hread : read_task st o.id = some o) :
    auto_unblock_step tid st o =
      st.map fun u => if u.id = o.id then unblockOf tid u else u := by
  have homem : o ∈ st := (read_task_id_mem st o.id o hread).2
  unfold auto_unblock_step
  by_cases hc : o.id ≠ tid ∧ tid ∈ o.blocked_by
  · rw [if_pos hc]
    have hpresent : st.any (fun u =>
        u.id == ({ o with blocked_by := o.blocked_by.filter fun i => i != tid } : TaskItem).id) = true := by
      refine List.any_eq_true.mpr ⟨o, homem, ?_⟩
      exact beq_self_eq_true o.id
    rw [write_task_present st _ hpresent]
    apply List.map_congr_left
    intro u hu
    by_cases hid : u.id = o.id
    · have hue : u = o := eq_of_mem_nodup_id st hnd u o hu homem hid
      rw [if_pos (show (u.id == ({ o with blocked_by := o.blocked_by.filter fun i => i != tid } : TaskItem).id) = true by
          rw [hue]; exact beq_self_eq_true o.id),
        if_pos hid]
      subst hue
      unfold unblockOf
      rw [if_pos hc]
    · rw [if_neg (show ¬ (u.id == ({ o with blocked_by := o.blocked_by.filter fun i => i != tid } : TaskItem).id) = true by
          simpa using hid),
        if_neg hid]
  · rw [if_neg hc]
    have hall : ∀ u ∈ st, (if u.id = o.id then unblockOf tid u else u) = u := by
      intro u hu
      by_cases hid : u.id = o.id
      · have hue : u = o := eq_of_mem_nodup_id st hnd u o hu homem hid
        rw [if_pos hid]
        subst hue
        unfold unblockOf
        rw [if_neg hc]
      · rw [if_neg hid]
    calc st = st.map id := (List.map_id st).symm
      _ = st.map fun u => if u.id = o.id then unblockOf tid u else u :=
        List.map_congr_left fun u hu => (hall u hu).symm

theorem fold_unblock (tid : String) :
    ∀ (L st : List TaskItem), (st.map TaskItem.id).Nodup →
      (L.map TaskItem.id).Nodup → (∀ o ∈ L, read_task st o.id = some o) →
      L.foldl (auto_unblock_step tid) st =
        st.map fun u => if u.id ∈ L.map TaskItem.id then unblockOf tid u else u := by
  intro L
  induction L with
  | nil =>
    intro st _ _ _
    simp
  | cons o rest ih =>
    intro st hnd hLnd hread
    simp only [List.map_cons, List.nodup_cons] at hLnd
    simp only [List.foldl_cons]
    rw [auto_unblock_step_eq tid st o hnd (hread o (List.mem_cons_self o rest))]
    have hidpres : ∀ u : TaskItem,
        ((fun u => if u.id = o.id then unblockOf tid u else u) u).id = u.id := by
      intro u
      by_cases hid : u.id = o.id
      · simp only
        rw [if_pos hid, unblockOf_id]
      · simp only
        rw [if_neg hid]
    have hids : (st.map fun u => if u.id = o.id then unblockOf tid u else u).map
        TaskItem.id = st.map TaskItem.id := by
      rw [List.map_map]
      exact List.map_congr_left fun u _ => hidpres u
    have hnd2 : ((st.map fun u => if u.id = o.id then unblockOf tid u else u).map
        TaskItem.id).Nodup := by
      rw [hids]
      exact hnd
    have hread2 : ∀ o2 ∈ rest,
        read_task (st.map fun u => if u.id = o.id then unblockOf tid u else u)
          o2.id = some o2 := by
      intro o2 ho2
      rw [read_task_map _ hidpres st o2.id,
        hread o2 (List.mem_cons_of_mem o ho2)]
      have hne : o2.id ≠ o.id := by
        intro he
        exact hLnd.1 (he ▸ List.mem_map_of_mem TaskItem.id ho2)
      dsimp only [Option.map]
      rw [if_neg hne]
    rw [ih _ hnd2 hLnd.2 hread2, List.map_map]
    apply List.map_congr_left
    intro u hu
    dsimp only [Function.comp]
    simp only [List.map_cons]
    by_cases hid : u.id = o.id
    · rw [if_pos hid]
      have hnomem : (unblockOf tid u).id ∉ rest.map TaskItem.id := by
        rw [unblockOf_id, hid]
        exact hLnd.1
      rw [if_neg hnomem,
        if_pos (show u.id ∈ o.id :: rest.map TaskItem.id from
          hid ▸ List.mem_cons_self o.id (rest.map TaskItem.id))]
    · rw [if_neg hid]
      by_cases hmem : u.id ∈ rest.map TaskItem.id
      · rw [if_pos hmem,
          if_pos (show u.id ∈ o.id :: rest.map TaskItem.id from
            List.mem_cons_of_mem o.id hmem)]
      · rw [if_neg hmem, if_neg (show ¬ u.id ∈ o.id :: rest.map TaskItem.id by
          intro hcon
          rcases List.mem_cons.mp hcon with h | h
          · exact hid h
          · exact hmem h)]

theorem auto_unblock_eq (store : List TaskItem) (tid : String)
    (hnd : (store.map TaskItem.id).Nodup) :
    auto_unblock store tid = store.map (unblockOf tid) := by
  unfold auto_unblock
  have hperm : List.Perm (list_tasks store) store :=
    List.mergeSort_perm store _
  have hpermids : List.Perm ((list_tasks store).map TaskItem.id)
      (store.map TaskItem.id) := hperm.map TaskItem.id
  have hLnd : ((list_tasks store).map TaskItem.id).Nodup :=
    hpermids.nodup_iff.mpr hnd
  have hread : ∀ o ∈ list_tasks store, read_task store o.id = some o := by
    intro o ho
    exact read_task_of_mem store hnd o (hperm.mem_iff.mp ho)
  rw [fold_unblock tid (list_tasks store) store hnd hLnd hread]
  apply List.map_congr_left
  intro u hu
  rw [if_pos (hpermids.mem_iff.mpr (List.mem_map_of_mem TaskItem.id hu))]

end Octo

namespace Octo

theorem apply_nonstatus_id_status (params : Json) (t : TaskItem) :
    (apply_nonstatus_updates params t).id = t.id ∧
    (apply_nonstatus_updates params t).status = t.status := by
  unfold apply_nonstatus_updates upd_add_blocked_by upd_add_blocks
    upd_active_form upd_owner upd_description upd_subject
  constructor <;> (repeat' split) <;> rfl

theorem unblockOf_clears (tid : String) (v : TaskItem)
    (hne : (unblockOf tid v).id ≠ tid) : tid ∉ (unblockOf tid v).blocked_by := by
  unfold unblockOf at *
  by_cases hc : v.id ≠ tid ∧ tid ∈ v.blocked_by
  · rw [if_pos hc]
    intro hmem
    have := (List.mem_filter.mp hmem).2
    simp at this
  · rw [if_neg hc] at hne ⊢
    rcases not_and_or.mp hc with h | h
    · exact absurd hne (by simpa using h)
    · exact h

/-- C7: after `task_update` marks a stored task `tid` completed, the
update succeeds, no other stored task's `blocked_by` still holds `tid`,
and a stored task other than `tid` reads back with exactly `tid` filtered
out of its `blocked_by` (so one previously blocked only by `tid` reads
back with `blocked_by = []`). -/
theorem task_update_auto_unblock (store : List TaskItem) (params : Json)
    (tid : String) (t1 : TaskItem)
    (hnd : (store.map TaskItem.id).Nodup)
    (hp1 : (params.getField "task_id").asStr = some tid)
    (hp2 : (params.getField "status").asStr = some "completed")
    (ht1 : read_task store tid = some t1) :
    (∃ t2, (task_update_apply store params).1 = .updated t2 ∧
      t2.id = tid ∧ t2.status = .completed) ∧
    (∀ u ∈ (task_update_apply store params).2, u.id ≠ tid →
      tid ∉ u.blocked_by) ∧
    (∀ t2, read_task store t2.id = some t2 → t2.id ≠ tid →
      read_task (task_update_apply store params).2 t2.id =
        some { t2 with blocked_by := t2.blocked_by.filter fun i => i != tid }) := by
  have ht1m := read_task_id_mem store tid t1 ht1
  have hpre : ({ t1 with status := TaskStatus.completed } : TaskItem).id = t1.id := rfl
  have hid : (apply_nonstatus_updates params
      { t1 with status := TaskStatus.completed }).id = tid :=
    ((apply_nonstatus_id_status params _).1.trans hpre).trans ht1m.1
  have hstat : (apply_nonstatus_updates params
      { t1 with status := TaskStatus.completed }).status = TaskStatus.completed :=
    (apply_nonstatus_id_status params _).2
  set tnew := apply_nonstatus_updates params
    { t1 with status := TaskStatus.completed } with htnewdef
  have happ : apply_task_updates params t1 = .ok tnew := by
    unfold apply_task_updates
    rw [hp2]
    rfl
  have hres : task_update_apply store params =
      (.updated tnew, auto_unblock (write_task store tnew) tnew.id) := by
    unfold task_update_apply
    rw [hp1]
    dsimp only
    rw [hp2, if_neg (by decide : ¬ (some "completed" = some "deleted")), ht1]
    dsimp only
    rw [happ]
    dsimp only
    rw [if_pos hstat]
  have hpresent : store.any (fun u => u.id == tnew.id) = true := by
    refine List.any_eq_true.mpr ⟨t1, ht1m.2, ?_⟩
    rw [hid, ht1m.1]
    exact beq_self_eq_true tid
  have hw : write_task store tnew =
      store.map fun u => if u.id == tnew.id then tnew else u :=
    write_task_present store tnew hpresent
  have hfid : ∀ u : TaskItem,
      ((fun u => if u.id == tnew.id then tnew else u) u).id = u.id := by
    intro u
    dsimp only
    by_cases hb : (u.id == tnew.id) = true
    · rw [if_pos hb, (eq_of_beq hb).symm]
    · rw [if_neg hb]
  have hids1 : (write_task store tnew).map TaskItem.id = store.map TaskItem.id := by
    rw [hw, List.map_map]
    exact List.map_congr_left fun u _ => hfid u
  have hnd1 : ((write_task store tnew).map TaskItem.id).Nodup := by
    rw [hids1]
    exact hnd
  have hau : auto_unblock (write_task store tnew) tnew.id =
      (write_task store tnew).map (unblockOf tnew.id) :=
    auto_unblock_eq (write_task store tnew) tnew.id hnd1
  refine ⟨⟨tnew, by rw [hres], hid, hstat⟩, ?_, ?_⟩
  · intro u hu hune
    rw [hres] at hu
    dsimp only at hu
    rw [hau] at hu
    rcases List.mem_map.mp hu with ⟨v, _hv, hveq⟩
    have : tid ∉ (unblockOf tnew.id v).blocked_by := by
      rw [hid]
      exact unblockOf_clears tid v (by rw [← hid] at hune ⊢; rw [hveq]; exact hveq ▸ hune)
    exact hveq ▸ this
  · intro t2 hread2 hne2
    rw [hres]
    dsimp only
    rw [hau, read_task_map (unblockOf tnew.id) (unblockOf_id tnew.id)
      (write_task store tnew) t2.id, hw,
      read_task_map _ hfid store t2.id, hread2]
    dsimp only [Option.map]
    rw [if_neg (show ¬ (t2.id == tnew.id) = true by
      rw [hid]
      simpa using hne2)]
    have : unblockOf tnew.id t2 =
        { t2 with blocked_by := t2.blocked_by.filter fun i => i != tid } := by
      rw [hid]
      unfold unblockOf
      by_cases hmem : tid ∈ t2.blocked_by
      · rw [if_pos ⟨hne2, hmem⟩]
      · rw [if_neg (by
          intro hcon
          exact hmem hcon.2)]
        have hfe : t2.blocked_by.filter (fun i => i != tid) = t2.blocked_by :=
          List.filter_eq_self.mpr fun i hi => by
            simp only [bne_iff_ne, ne_eq, decide_eq_true_eq]
            intro he
            exact hmem (he ▸ hi)
        rw [hfe]
    rw [this]

end Octo

namespace Octo

/-- C7 witness: completing task "1" in a store where task "2" is blocked
by it. -/
theorem task_update_auto_unblock_witness :
    (∃ t2, (task_update_apply c7Store c7Params).1 = .updated t2 ∧
      t2.id = "1" ∧ t2.status = .completed) ∧
    (∀ u ∈ (task_update_apply c7Store c7Params).2, u.id ≠ "1" →
      "1" ∉ u.blocked_by) ∧
    (∀ t2, read_task c7Store t2.id = some t2 → t2.id ≠ "1" →
      read_task (task_update_apply c7Store c7Params).2 t2.id =
        some { t2 with blocked_by := t2.blocked_by.filter fun i => i != "1" }) :=
  task_update_auto_unblock c7Store c7Params "1" c7T1 (by decide) rfl rfl rfl

end Octo
